import Mathlib

/-!
Shallow embedding of the oak-client middleware HTTP library
(src/src/client.ts: the OakClient class, the middleware factories
urlPrefix excluded, timeout, retry, throwErrors, and the Koa-style
compose dispatcher).

Asynchronous computations mutating a shared context are modelled as
state transformers `sigma -> sigma * Except eps alpha`: a handler receives
the downstream continuation (its `next`) and produces a computation.
Promise rejection is the `Except.error` outcome.
-/

namespace Oak

/-- A computation over mutable state `σ` that either resolves with a value
of type `α` or rejects with an error of type `ε`. This models a JavaScript
async function observing and mutating the shared context. -/
def MM (σ ε α : Type) : Type := σ → σ × Except ε α

/-- Model of `Promise.resolve(v)`: no state change, successful result. -/
def pureM {σ ε α : Type} (a : α) : MM σ ε α := fun s => (s, Except.ok a)

/-- An OakHandler `(ctx, next) => ...` from src: the context is the state
threaded by the computation, so a handler is a transformer of the
downstream continuation. -/
def HandlerM (σ ε : Type) : Type := MM σ ε Unit → MM σ ε Unit

/-- Model of a JavaScript Error value: the constructor name inspected by
the timeout middleware, a message, and the Boom status payload. -/
structure JsError where
  name : String
  message : String
  statusCode : Option Nat
  deriving DecidableEq, Repr

/-- Model of the TimeoutError class. Modelled from the spec: the class
itself lives in src/errors.ts which is absent from src/; the spec calls it
a distinct canonical timeout error kind, so its constructor name differs
from the transport abort name. -/
def TimeoutErrorE : JsError := { name := "TimeoutError", message := "", statusCode := none }

/-- The constructor name of the transport deadline-abort error recognized
by the timeout middleware (`(e as Error).constructor.name === "AbortError"`). -/
def abortName : String := "AbortError"

/-- Model of `new Boom.Boom(undefined, { statusCode: status })` thrown by
throwErrors: a structured HTTP error carrying the status code. -/
def boomE (status : Nat) : JsError := { name := "Boom", message := "", statusCode := some status }

/-- Model of the TypeError raised by destructuring `ctx.res!` when the
response is absent. -/
def destructureE : JsError :=
  { name := "TypeError", message := "Cannot destructure property status of undefined", statusCode := none }

/-- Model of `new TypeError("Middleware stack must be an array!")`. -/
def mwStackE : JsError :=
  { name := "TypeError", message := "Middleware stack must be an array!", statusCode := none }

/-- Model of `new TypeError("Middleware must be composed of functions!")`. -/
def mwFnE : JsError :=
  { name := "TypeError", message := "Middleware must be composed of functions!", statusCode := none }

/-- An abort signal on a request: either one supplied by the caller
(identified by a number) or the signal of the AbortController created by
the timeout middleware. -/
inductive AbortSignal where
  | caller (id : Nat)
  | timeoutController
  deriving DecidableEq, Repr

/-- Model of the RequestInit options record. -/
structure RequestInit where
  method : Option String
  headers : List (String × String)
  body : Option String
  signal : Option AbortSignal
  deriving DecidableEq, Repr

/-- A RequestInit with every field absent, the `\x7b\x7d` default. -/
def emptyInit : RequestInit := { method := none, headers := [], body := none, signal := none }

/-- The `req` part of the context: `input` and `init`. -/
structure OakRequest where
  input : String
  init : RequestInit
  deriving DecidableEq, Repr

/-- An abstract parsed JSON document: the `\x7b\x7d` literal assigned as
the default `data`, or an opaque parsed document identified by a number. -/
inductive JsonVal where
  | emptyObj
  | doc (id : Nat)
  deriving DecidableEq, Repr

/-- Abstract model of `JSON.stringify`. -/
def stringify : JsonVal → String
  | JsonVal.emptyObj => "JSONempty"
  | JsonVal.doc n => "JSONdoc" ++ toString n

/-- The normalized OakResponse record `status, headers, data, raw?`. -/
structure OakResponse where
  status : Nat
  headers : List (String × String)
  data : JsonVal
  raw : Option String
  deriving DecidableEq, Repr

/-- The mutable OakContext threaded through the pipeline. -/
structure OakContext where
  req : OakRequest
  res : Option OakResponse
  error : Option JsError
  deriving DecidableEq, Repr

/-- Koa-style dispatcher from `compose` in src: `dispatch i` invokes
`middleware[i]` passing `dispatch (i+1)` as its next; at `i = length` it
invokes the optional outer `next`; past the end (or with no outer next)
it resolves with no effect. -/
def dispatch {σ ε : Type} (middleware : List (HandlerM σ ε)) (next : Option (MM σ ε Unit)) (i : Nat) : MM σ ε Unit :=
  if h : i < middleware.length then
    (middleware.get ⟨i, h⟩) (dispatch middleware next (i + 1))
  else if i = middleware.length then
    match next with
    | some fn => fn
    | none => pureM ()
  else
    pureM ()
termination_by middleware.length - i
decreasing_by simp_wf; omega

/-- The pipeline produced by `compose(middleware)` applied to a context and
an optional terminal next: every invocation starts its private cursor at 0. -/
def compose {σ ε : Type} (middleware : List (HandlerM σ ε)) (next : Option (MM σ ε Unit)) : MM σ ε Unit :=
  dispatch middleware next 0

theorem dispatch_lt {σ ε : Type} (middleware : List (HandlerM σ ε)) (next : Option (MM σ ε Unit))
    (i : Nat) (h : i < middleware.length) :
    dispatch middleware next i = (middleware.get ⟨i, h⟩) (dispatch middleware next (i + 1)) := by
  rw [dispatch.eq_def]
  simp [h]

theorem dispatch_len {σ ε : Type} (middleware : List (HandlerM σ ε)) (next : Option (MM σ ε Unit)) :
    dispatch middleware next middleware.length =
      match next with
      | some fn => fn
      | none => pureM () := by
  rw [dispatch.eq_def]
  simp

theorem dispatch_gt {σ ε : Type} (middleware : List (HandlerM σ ε)) (next : Option (MM σ ε Unit))
    (i : Nat) (h : middleware.length < i) :
    dispatch middleware next i = pureM () := by
  rw [dispatch.eq_def]
  have h1 : ¬ i < middleware.length := by omega
  have h2 : ¬ i = middleware.length := by omega
  simp [h1, h2]

/-- Shifting the cursor by one past a leading handler is dispatching the
tail: the index-based dispatcher agrees with structural recursion. -/
theorem dispatch_succ_cons {σ ε : Type} (h : HandlerM σ ε) (t : List (HandlerM σ ε))
    (next : Option (MM σ ε Unit)) (i : Nat) :
    dispatch (h :: t) next (i + 1) = dispatch t next i := by
  have key : ∀ n j, t.length - j = n → dispatch (h :: t) next (j + 1) = dispatch t next j := by
    intro n
    induction n with
    | zero =>
      intro j hj
      rcases Nat.lt_or_ge j t.length with hlt | hge
      · omega
      rcases Nat.eq_or_lt_of_le hge with heq | hgt
      · rw [← heq]
        rw [show t.length + 1 = (h :: t).length from rfl]
        rw [dispatch_len, dispatch_len]
      · rw [dispatch_gt t next j hgt]
        rw [dispatch_gt (h :: t) next (j + 1) (by simp; omega)]
    | succ n ih =>
      intro j hj
      have hlt : j < t.length := by omega
      have hlt2 : j + 1 < (h :: t).length := by simp; omega
      rw [dispatch_lt t next j hlt, dispatch_lt (h :: t) next (j + 1) hlt2]
      have hget : (h :: t).get ⟨j + 1, hlt2⟩ = t.get ⟨j, hlt⟩ := rfl
      rw [hget, ih (j + 1) (by omega)]
  exact key (t.length - i) i rfl

theorem compose_nil {σ ε : Type} (next : Option (MM σ ε Unit)) :
    compose ([] : List (HandlerM σ ε)) next =
      match next with
      | some fn => fn
      | none => pureM () := by
  unfold compose
  rw [show (0 : Nat) = ([] : List (HandlerM σ ε)).length from rfl, dispatch_len]

theorem compose_cons {σ ε : Type} (h : HandlerM σ ε) (t : List (HandlerM σ ε))
    (next : Option (MM σ ε Unit)) :
    compose (h :: t) next = h (compose t next) := by
  unfold compose
  rw [dispatch_lt (h :: t) next 0 (by simp)]
  rw [show ((h :: t).get ⟨0, by simp⟩) = h from rfl]
  rw [dispatch_succ_cons]

/-! Validation performed at the top of `compose` in src: the argument is an
arbitrary JavaScript value, either not an array at all (`Option.none`
here) or an array whose entries may or may not be functions. -/

/-- An entry of the untyped middleware array handed to compose: a function
value, or some other JavaScript value (described by a string). -/
inductive MwEntry (σ ε : Type) where
  | fn (h : HandlerM σ ε)
  | nonFn (v : String)

/-- True when the entry is a function value. -/
def MwEntry.isFn {σ ε : Type} : MwEntry σ ε → Bool
  | MwEntry.fn _ => true
  | MwEntry.nonFn _ => false

/-- The `for (const fn of middleware)` loop of compose: fails with the
TypeError on the first non-function entry, otherwise yields the handlers. -/
def checkEntries {σ ε : Type} : List (MwEntry σ ε) → Except JsError (List (HandlerM σ ε))
  | [] => Except.ok []
  | MwEntry.fn h :: t =>
    match checkEntries t with
    | Except.ok hs => Except.ok (h :: hs)
    | Except.error e => Except.error e
  | MwEntry.nonFn _ :: _ => Except.error mwFnE

/-- Model of the full `compose(middleware)` call on an untyped argument:
`none` models a non-array argument and is rejected with
`Middleware stack must be an array!`; an array with a non-function entry is
rejected with `Middleware must be composed of functions!`; otherwise the
dispatcher pipeline is returned. Both rejections occur synchronously,
before any handler is invoked. -/
def composeChecked {σ ε : Type} (arg : Option (List (MwEntry σ ε))) :
    Except JsError (Option (MM σ ε Unit) → MM σ ε Unit) :=
  match arg with
  | none => Except.error mwStackE
  | some entries =>
    match checkEntries entries with
    | Except.error e => Except.error e
    | Except.ok hs => Except.ok (fun next => compose hs next)

/-! The middleware factories from src/src/middleware.ts (second part of
the provided client.ts source). -/

/-- Model of `throwErrors()`: await next, then destructure
`const (status) = ctx.res!`; destructuring an absent response raises a
TypeError; a status of 400 or more raises a Boom error carrying that
status code; otherwise return normally. -/
def throwErrors : HandlerM OakContext JsError := fun next => fun ctx =>
  match next ctx with
  | (ctx1, Except.error e) => (ctx1, Except.error e)
  | (ctx1, Except.ok _) =>
    match ctx1.res with
    | none => (ctx1, Except.error destructureE)
    | some r =>
      if r.status ≥ 400 then (ctx1, Except.error (boomE r.status))
      else (ctx1, Except.ok ())

/-- The entry phase of the timeout middleware: a fresh AbortController is
created and `req.init.signal = controller.signal` overwrites whatever
signal the caller supplied. Every other field of the context is untouched. -/
def timeoutEntry (ctx : OakContext) : OakContext :=
  { ctx with req := { ctx.req with init := { ctx.req.init with signal := some AbortSignal.timeoutController } } }

/-- Final state of the deadline timer armed by `setTimeout`. -/
inductive TimerState where
  | armed
  | cleared
  deriving DecidableEq, Repr

/-- Model of `timeout(ms)`: arm the deadline timer, overwrite the request
signal with the controller signal, await next inside
try / catch / finally. A rejection whose constructor name is AbortError is
reclassified as TimeoutError, any other rejection is re-thrown unchanged,
a resolution is returned unchanged; the finally clause clears the timer on
each of the three paths, which the TimerState component records. The
real-time race with the deadline is abstracted into the outcome of next. -/
def timeout (next : MM OakContext JsError Unit) (ctx : OakContext) :
    (OakContext × TimerState) × Except JsError Unit :=
  match next (timeoutEntry ctx) with
  | (ctx1, Except.ok u) => ((ctx1, TimerState.cleared), Except.ok u)
  | (ctx1, Except.error e) =>
    if e.name = abortName then ((ctx1, TimerState.cleared), Except.error TimeoutErrorE)
    else ((ctx1, TimerState.cleared), Except.error e)

/-- Model of the do-while loop of `retry(handler)`, generic in the state:
`attempt` is incremented at the top of each iteration before next is
invoked; on rejection the decision handler is consulted with the current
attempt number and the error; a true decision loops again, a false
decision re-throws the original error, and a rejection of the decision
handler itself propagates. The source loop has no iteration ceiling, so
the model carries fuel; `none` means the loop was still running after
`fuel` iterations. -/
def retryAux {σ ε : Type} (handler : Nat → ε → MM σ ε Bool) (next : MM σ ε Unit) :
    Nat → Nat → σ → Option (σ × Except ε Unit)
  | 0, _, _ => none
  | fuel + 1, attempt, s =>
    match next s with
    | (s1, Except.ok u) => some (s1, Except.ok u)
    | (s1, Except.error e) =>
      match handler attempt e s1 with
      | (s2, Except.ok true) => retryAux handler next fuel (attempt + 1) s2
      | (s2, Except.ok false) => some (s2, Except.error e)
      | (s2, Except.error e2) => some (s2, Except.error e2)

/-- Model of `retry(handler)` applied to a downstream next: the attempt
counter starts at 0 and is incremented to 1 before the first invocation. -/
def retry {σ ε : Type} (handler : Nat → ε → MM σ ε Bool) (next : MM σ ε Unit) (fuel : Nat) :
    σ → Option (σ × Except ε Unit) :=
  fun s => retryAux handler next fuel 1 s

/-! The OakClient class. The transport collaborator (`cross-fetch`) is an
injected function; a transport reply carries the status, the headers, the
value its `json()` accessor resolves to and the text its `text()` accessor
resolves to. -/

/-- A raw transport reply. -/
structure TransportResponse where
  status : Nat
  headers : List (String × String)
  jsonBody : JsonVal
  textBody : String
  deriving DecidableEq, Repr

/-- The injected fetch implementation: it may reject with an error. -/
def Transport : Type := String → RequestInit → Except JsError TransportResponse

/-- A transport that always resolves with the same reply. -/
def constTransport (r : TransportResponse) : Transport := fun _ _ => Except.ok r

/-- Model of `Headers.get`. -/
def getHeader (hs : List (String × String)) (k : String) : Option String :=
  (hs.find? (fun p => p.1 = k)).map Prod.snd

/-- The terminal continuation built inside `OakClient.fetch`: perform the
transport call on the current `ctx.req`; on failure record `ctx.error` and
re-throw; on success populate `ctx.res`, parsing the body as JSON exactly
when the content-type header contains `application/json` and otherwise
keeping the unparsed text in `raw`. -/
def terminalNext (fetchImplementation : Transport) : MM OakContext JsError Unit := fun ctx =>
  match fetchImplementation ctx.req.input ctx.req.init with
  | Except.error e => ({ ctx with error := some e }, Except.error e)
  | Except.ok response =>
    let contentTypeHeader := (getHeader response.headers "content-type").getD ""
    if contentTypeHeader.containsSubstr "application/json" then
      let r : OakResponse :=
        { status := response.status, headers := response.headers, data := response.jsonBody, raw := none }
      ({ ctx with res := some r }, Except.ok ())
    else
      let r : OakResponse :=
        { status := response.status, headers := response.headers, data := JsonVal.emptyObj, raw := some response.textBody }
      ({ ctx with res := some r }, Except.ok ())

/-- The OakClient: an injected fetch implementation and the registered
middleware list (appended to by `use`). -/
structure OakClient where
  fetchImplementation : Transport
  middleware : List (HandlerM OakContext JsError)

/-- Model of `OakClient.fetch`: build a fresh context, compose the
registered middleware over the terminal transport continuation, run the
pipeline, and return `ctx.res` (which the source coerces, so an absent
response surfaces as `none`); a pipeline rejection rejects the call. -/
def OakClient.fetch (c : OakClient) (input : String) (init : RequestInit) :
    Except JsError (Option OakResponse) :=
  let ctx : OakContext := { req := { input := input, init := init }, res := none, error := none }
  match compose c.middleware (some (terminalNext c.fetchImplementation)) ctx with
  | (ctx1, Except.ok _) => Except.ok ctx1.res
  | (_, Except.error e) => Except.error e

/-- Model of `OakClient.get`: spread the optional init and force the GET
method. -/
def OakClient.get (c : OakClient) (input : String) (init : Option RequestInit) :
    Except JsError (Option OakResponse) :=
  c.fetch input { init.getD emptyInit with method := some "GET" }

/-- Model of `OakClient.post`: spread the optional init and force the POST
method. -/
def OakClient.post (c : OakClient) (input : String) (init : Option RequestInit) :
    Except JsError (Option OakResponse) :=
  c.fetch input { init.getD emptyInit with method := some "POST" }

/-- Object-spread override of one header key: the later key wins. -/
def setHeader (hs : List (String × String)) (k v : String) : List (String × String) :=
  (hs.filter (fun p => p.1 ≠ k)) ++ [(k, v)]

/-- Model of `OakClient.postJson`: force POST, override the content-type
header with `application/json` on top of the caller headers, and stringify
the body. -/
def OakClient.postJson (c : OakClient) (input : String) (body : JsonVal) (init : Option RequestInit) :
    Except JsError (Option OakResponse) :=
  c.fetch input
    { method := some "POST",
      headers := setHeader (init.getD emptyInit).headers "content-type" "application/json",
      body := some (stringify body),
      signal := (init.getD emptyInit).signal }

/-! Generic shapes used to state the onion-ordering property: a handler
with a pre-phase state effect, exactly one invocation of next, and a
post-phase state effect (the post-phase is skipped when next rejects,
mirroring an await of a rejecting next). -/

/-- A handler that applies `pre` to the state, calls its next exactly
once, and applies `post` to the state next produced. -/
def mkOnion {σ ε : Type} (pre post : σ → σ) : HandlerM σ ε := fun next => fun s =>
  match next (pre s) with
  | (s1, Except.ok u) => (post s1, Except.ok u)
  | (s1, Except.error e) => (s1, Except.error e)

/-- The marker handler of the spec test: append a marker to the trace
before calling next and another one after next resolves. -/
def mkMarker {ε : Type} (preMark postMark : String) : HandlerM (List String) ε :=
  mkOnion (fun s => s ++ [preMark]) (fun s => s ++ [postMark])

/-- A terminal continuation that applies a state effect and resolves. -/
def effectNext {σ ε : Type} (tf : σ → σ) : MM σ ε Unit := fun s => (tf s, Except.ok ())

theorem mkOnion_apply {σ ε : Type} (pre post : σ → σ) (next : MM σ ε Unit) (s : σ) :
    mkOnion pre post next s =
      match next (pre s) with
      | (s1, Except.ok u) => (post s1, Except.ok u)
      | (s1, Except.error e) => (s1, Except.error e) := rfl

theorem onion_order {σ ε : Type} (ps : List ((σ → σ) × (σ → σ))) (tf : σ → σ) (s0 : σ) :
    compose (ps.map fun p => @mkOnion σ ε p.1 p.2) (some (effectNext tf)) s0
      = (List.foldr (fun g s => g s)
          (tf (List.foldl (fun s f => f s) s0 (ps.map Prod.fst)))
          (ps.map Prod.snd),
         Except.ok ()) := by
  induction ps generalizing s0 with
  | nil =>
    rw [List.map_nil, compose_nil]
    simp [effectNext]
  | cons p rest ih =>
    rw [List.map_cons, compose_cons]
    show mkOnion p.1 p.2 (compose (rest.map fun p => @mkOnion σ ε p.1 p.2) (some (effectNext tf))) s0 = _
    rw [mkOnion_apply, ih (p.1 s0)]
    simp

/-- C1: Onion ordering. For every sequence of handlers that each call
their next exactly once (pre-effect, one next, post-effect), the composed
pipeline applies the pre-effects in registration order, then the terminal
continuation, then the post-effects in reverse registration order; in
particular the three-marker chain of the spec produces the trace
1pre 2pre 3pre 3post 2post 1post. -/
theorem claim_C1_onion_ordering :
    (∀ (σ ε : Type) (ps : List ((σ → σ) × (σ → σ))) (tf : σ → σ) (s0 : σ),
      compose (ps.map fun p => @mkOnion σ ε p.1 p.2) (some (effectNext tf)) s0
        = (List.foldr (fun g s => g s)
            (tf (List.foldl (fun s f => f s) s0 (ps.map Prod.fst)))
            (ps.map Prod.snd),
           Except.ok ())) ∧
    compose [@mkMarker JsError "1pre" "1post", mkMarker "2pre" "2post", mkMarker "3pre" "3post"]
        (some (effectNext id)) []
      = (["1pre", "2pre", "3pre", "3post", "2post", "1post"], Except.ok ()) := by
  constructor
  · intro σ ε ps tf s0
    exact onion_order ps tf s0
  · rw [show [@mkMarker JsError "1pre" "1post", mkMarker "2pre" "2post", mkMarker "3pre" "3post"]
          = ([(fun s => s ++ ["1pre"], fun s => s ++ ["1post"]),
              (fun s => s ++ ["2pre"], fun s => s ++ ["2post"]),
              (fun s => s ++ ["3pre"], fun s => s ++ ["3post"])].map
              fun p => @mkOnion (List String) JsError p.1 p.2) from rfl]
    rw [onion_order]
    simp

/-! Instrumentation for the retry claim: a downstream next over a bare
invocation counter that fails on every call with an error drawn from an
arbitrary error sequence, and a tracing variant that also lets the
decision function record the attempt numbers it receives. -/

/-- A downstream next that increments the invocation counter and rejects
with the error assigned to that invocation. -/
def countingNext (errOf : Nat → JsError) : MM Nat JsError Unit :=
  fun c => (c + 1, Except.error (errOf (c + 1)))

/-- A downstream next over a counter paired with an attempt trace: it
increments the counter and rejects with the error of that invocation. -/
def nextTrace (errOf : Nat → JsError) : MM (Nat × List Nat) JsError Unit :=
  fun s => ((s.1 + 1, s.2), Except.error (errOf (s.1 + 1)))

/-- A decision function of the shape the claim quantifies over, allowing
exactly `N - 1` retries, which records each attempt number it is given. -/
def decTrace (N : Nat) : Nat → JsError → MM (Nat × List Nat) JsError Bool :=
  fun a _ => fun s => ((s.1, s.2 ++ [a]), Except.ok (decide (a < N)))

theorem retry_count_aux (N : Nat) (d : Nat → JsError → MM Nat JsError Bool) (errOf : Nat → JsError)
    (hlt : ∀ a e, 1 ≤ a → a < N → d a e = pureM true)
    (hN : ∀ e, d N e = pureM false) :
    ∀ fuel j, j + 1 ≤ N → N - j ≤ fuel →
      retryAux d (countingNext errOf) fuel (j + 1) j = some (N, Except.error (errOf N)) := by
  intro fuel
  induction fuel with
  | zero =>
    intro j h1 h2
    omega
  | succ fuel ih =>
    intro j h1 h2
    simp only [retryAux, countingNext]
    rcases Nat.eq_or_lt_of_le h1 with heq | hlt2
    · rw [heq, hN (errOf N)]
      simp [pureM]
    · rw [hlt (j + 1) (errOf (j + 1)) (by omega) hlt2]
      simp only [pureM]
      exact ih (j + 1) (by omega) (by omega)

theorem retry_trace_aux (N : Nat) (errOf : Nat → JsError) :
    ∀ fuel j tr, j + 1 ≤ N → N - j ≤ fuel →
      retryAux (decTrace N) (nextTrace errOf) fuel (j + 1) (j, tr)
        = some ((N, tr ++ List.range' (j + 1) (N - j)), Except.error (errOf N)) := by
  intro fuel
  induction fuel with
  | zero =>
    intro j tr h1 h2
    omega
  | succ fuel ih =>
    intro j tr h1 h2
    simp only [retryAux, nextTrace, decTrace]
    rcases Nat.eq_or_lt_of_le h1 with heq | hlt2
    · have hd : decide (j + 1 < N) = false := by simp; omega
      simp only [hd]
      have hr : N - j = 1 := by omega
      rw [hr, heq]
      simp [List.range']
    · have hd : decide (j + 1 < N) = true := by simp; omega
      simp only [hd]
      have hrec := ih (j + 1) (tr ++ [j + 1]) (by omega) (by omega)
      rw [hrec]
      have hr : List.range' (j + 1) (N - j) = (j + 1) :: List.range' (j + 2) (N - (j + 1)) := by
        rw [show N - j = (N - (j + 1)) + 1 by omega, List.range'_succ]
      rw [hr]
      simp

/-- C2: Retry attempt accounting and failure propagation. For fuel at
least N: every pure decision function that answers true on attempts
1..N-1 and false on attempt N makes retry invoke its downstream next
exactly N times (the counter ends at N) and re-throw the Nth error
unchanged; and the tracing decision function of that shape is consulted
with the attempt numbers 1, 2, ..., N in this order, each recorded after
the corresponding downstream invocation. -/
theorem claim_C2_retry_accounting (N fuel : Nat) (errOf : Nat → JsError)
    (h1 : 1 ≤ N) (hfuel : N ≤ fuel) :
    (∀ d : Nat → JsError → MM Nat JsError Bool,
      (∀ a e, 1 ≤ a → a < N → d a e = pureM true) →
      (∀ e, d N e = pureM false) →
      retry d (countingNext errOf) fuel 0 = some (N, Except.error (errOf N))) ∧
    retry (decTrace N) (nextTrace errOf) fuel (0, [])
      = some ((N, List.range' 1 N), Except.error (errOf N)) := by
  constructor
  · intro d hlt hN
    unfold retry
    exact retry_count_aux N d errOf hlt hN fuel 0 (by omega) (by omega)
  · unfold retry
    have h := retry_trace_aux N errOf fuel 0 [] (by omega) (by omega)
    simpa using h

/-- Witness for C2 at N = 2 with a concrete decision function: the
downstream is invoked exactly twice and the second error surfaces. -/
theorem claim_C2_retry_accounting_witness :
    retry (fun a _ => pureM (decide (a < 2))) (countingNext boomE) 2 0
      = some (2, Except.error (boomE 2)) :=
  (claim_C2_retry_accounting 2 2 boomE (by decide) (by decide)).1
    (fun a _ => pureM (decide (a < 2)))
    (by
      intro a e ha1 ha2
      have ha : a = 1 := by omega
      rw [ha]
      rfl)
    (fun e => rfl)

/-- A sample context used by witnesses. -/
def sampleCtx : OakContext :=
  { req := { input := "/resource", init := emptyInit }, res := none, error := none }

/-- A concrete transport abort error. -/
def abortE : JsError := { name := "AbortError", message := "aborted", statusCode := none }

/-- C3: Timeout reclassification. Whatever outcome the downstream chain
produces on the signal-equipped context: a resolution is returned
normally; a rejection whose constructor name is the deadline-abort name
becomes a TimeoutError (which is distinct from the raw abort error, so the
caller never observes it); any other rejection is re-thrown unmodified. -/
theorem claim_C3_timeout_reclassification
    (next : MM OakContext JsError Unit) (ctx ctx1 : OakContext) :
    (∀ u, next (timeoutEntry ctx) = (ctx1, Except.ok u) →
      timeout next ctx = ((ctx1, TimerState.cleared), Except.ok u)) ∧
    (∀ e, next (timeoutEntry ctx) = (ctx1, Except.error e) → e.name = abortName →
      timeout next ctx = ((ctx1, TimerState.cleared), Except.error TimeoutErrorE) ∧
        TimeoutErrorE.name ≠ abortName ∧ TimeoutErrorE ≠ e) ∧
    (∀ e, next (timeoutEntry ctx) = (ctx1, Except.error e) → e.name ≠ abortName →
      timeout next ctx = ((ctx1, TimerState.cleared), Except.error e)) := by
  refine ⟨?_, ?_, ?_⟩
  · intro u h
    unfold timeout
    rw [h]
  · intro e h habort
    constructor
    · unfold timeout
      rw [h]
      simp [habort]
    constructor
    · intro hcontra
      simp [TimeoutErrorE, abortName] at hcontra
    · intro hcontra
      rw [← hcontra] at habort
      simp [TimeoutErrorE, abortName] at habort
  · intro e h habort
    unfold timeout
    rw [h]
    simp [habort]

/-- Witness for C3: a downstream rejecting with the abort error makes the
timeout handler reject with TimeoutError. -/
theorem claim_C3_timeout_reclassification_witness :
    timeout (fun _ => (sampleCtx, Except.error abortE)) sampleCtx
      = ((sampleCtx, TimerState.cleared), Except.error TimeoutErrorE) :=
  ((claim_C3_timeout_reclassification (fun _ => (sampleCtx, Except.error abortE))
      sampleCtx sampleCtx).2.1 abortE rfl rfl).1

/-- C4: Error escalation thresholds. When the downstream chain resolves
and has populated the response, throwErrors returns normally for a status
in 200..399 and rejects with a Boom error carrying exactly that status for
a status of 400 or more. -/
theorem claim_C4_throw_errors_thresholds
    (next : MM OakContext JsError Unit) (ctx ctx1 : OakContext) (r : OakResponse)
    (hnext : next ctx = (ctx1, Except.ok ())) (hres : ctx1.res = some r) :
    (200 ≤ r.status → r.status ≤ 399 → throwErrors next ctx = (ctx1, Except.ok ())) ∧
    (400 ≤ r.status →
      throwErrors next ctx = (ctx1, Except.error (boomE r.status)) ∧
        (boomE r.status).statusCode = some r.status) := by
  constructor
  · intro hlo hhi
    simp only [throwErrors, hnext, hres]
    rw [if_neg (by omega)]
  · intro hge
    constructor
    · simp only [throwErrors, hnext, hres]
      rw [if_pos (by omega)]
    · rfl

/-- A sample populated response of status 200. -/
def sampleRes200 : OakResponse :=
  { status := 200, headers := [], data := JsonVal.emptyObj, raw := none }

/-- Witness for C4: a downstream populating a 200 response makes
throwErrors return normally. -/
theorem claim_C4_throw_errors_thresholds_witness :
    throwErrors (fun c => ({ c with res := some sampleRes200 }, Except.ok ())) sampleCtx
      = ({ sampleCtx with res := some sampleRes200 }, Except.ok ()) :=
  (claim_C4_throw_errors_thresholds
      (fun c => ({ c with res := some sampleRes200 }, Except.ok ()))
      sampleCtx { sampleCtx with res := some sampleRes200 } sampleRes200 rfl rfl).1
    (by decide) (by decide)

/-- C7: Timer disarm on every exit path. Whatever the downstream outcome
(resolution, abort rejection, or unrelated rejection), the timeout
handler finishes with the deadline timer cleared. -/
theorem claim_C7_timer_disarmed (next : MM OakContext JsError Unit) (ctx : OakContext) :
    ((timeout next ctx).1).2 = TimerState.cleared := by
  unfold timeout
  rcases h : next (timeoutEntry ctx) with ⟨ctx1, r⟩
  rcases r with e | u
  · by_cases habort : e.name = abortName
    · simp [habort]
    · simp [habort]
  · rfl

/-- C9: On entry, the timeout handler overwrites the request signal with
the signal of its own AbortController, discarding any caller-supplied
signal; it changes no other field of the context, and after next settles
it performs no further context mutation of its own. -/
theorem claim_C9_timeout_signal_overwrite (next : MM OakContext JsError Unit) (ctx : OakContext) :
    (timeoutEntry ctx).req.init.signal = some AbortSignal.timeoutController ∧
    (timeoutEntry ctx).req.input = ctx.req.input ∧
    (timeoutEntry ctx).req.init.method = ctx.req.init.method ∧
    (timeoutEntry ctx).req.init.headers = ctx.req.init.headers ∧
    (timeoutEntry ctx).req.init.body = ctx.req.init.body ∧
    (timeoutEntry ctx).res = ctx.res ∧
    (timeoutEntry ctx).error = ctx.error ∧
    (timeout next ctx).1.1 = (next (timeoutEntry ctx)).1 := by
  refine ⟨rfl, rfl, rfl, rfl, rfl, rfl, rfl, ?_⟩
  unfold timeout
  rcases h : next (timeoutEntry ctx) with ⟨ctx1, r⟩
  rcases r with e | u
  · by_cases habort : e.name = abortName
    · simp [habort]
    · simp [habort]
  · rfl

theorem checkEntries_nonFn {σ ε : Type} (entries : List (MwEntry σ ε))
    (h : ∃ x ∈ entries, x.isFn = false) :
    checkEntries entries = Except.error mwFnE := by
  induction entries with
  | nil =>
    rcases h with ⟨x, hx, _⟩
    simp at hx
  | cons a t ih =>
    rcases a with hfn | v
    · rcases h with ⟨x, hx, hxf⟩
      rcases List.mem_cons.mp hx with heq | hmem
      · rw [heq] at hxf
        simp [MwEntry.isFn] at hxf
      · rw [show checkEntries (MwEntry.fn hfn :: t) =
            (match checkEntries t with
             | Except.ok hs => Except.ok (hfn :: hs)
             | Except.error e => Except.error e) from rfl]
        rw [ih ⟨x, hmem, hxf⟩]
    · rfl

theorem checkEntries_allFn {σ ε : Type} (hs : List (HandlerM σ ε)) :
    checkEntries (hs.map MwEntry.fn) = Except.ok hs := by
  induction hs with
  | nil => rfl
  | cons a t ih =>
    rw [List.map_cons]
    rw [show checkEntries (MwEntry.fn a :: t.map MwEntry.fn) =
        (match checkEntries (t.map MwEntry.fn) with
         | Except.ok hs => Except.ok (a :: hs)
         | Except.error e => Except.error e) from rfl]
    rw [ih]

/-- C5: Composer validation. A non-array argument is rejected with the
array TypeError, an array containing a non-function entry is rejected
with the functions TypeError (both synchronously, no handler having run),
and every array of function entries yields the dispatcher pipeline without
an error. -/
theorem claim_C5_compose_validation (σ ε : Type) :
    composeChecked (none : Option (List (MwEntry σ ε))) = Except.error mwStackE ∧
    (∀ entries : List (MwEntry σ ε), (∃ x ∈ entries, x.isFn = false) →
      composeChecked (some entries) = Except.error mwFnE) ∧
    (∀ hs : List (HandlerM σ ε),
      composeChecked (some (hs.map MwEntry.fn)) = Except.ok (fun next => compose hs next)) := by
  refine ⟨rfl, ?_, ?_⟩
  · intro entries h
    simp only [composeChecked]
    rw [checkEntries_nonFn entries h]
  · intro hs
    simp only [composeChecked]
    rw [checkEntries_allFn hs]

/-- Witness for C5: a singleton array holding a non-function value is
rejected with the functions TypeError. -/
theorem claim_C5_compose_validation_witness :
    composeChecked (some [MwEntry.nonFn "42"] : Option (List (MwEntry Nat JsError)))
      = Except.error mwFnE :=
  (claim_C5_compose_validation Nat JsError).2.1 [MwEntry.nonFn "42"]
    ⟨MwEntry.nonFn "42", by simp, rfl⟩

theorem client_fetch_empty (r : TransportResponse) (input : String) (init : RequestInit) :
    OakClient.fetch { fetchImplementation := constTransport r, middleware := [] } input init
      = Except.ok (some
          (if ((getHeader r.headers "content-type").getD "").containsSubstr "application/json" then
            { status := r.status, headers := r.headers, data := r.jsonBody, raw := none }
          else
            { status := r.status, headers := r.headers, data := JsonVal.emptyObj,
              raw := some r.textBody })) := by
  unfold OakClient.fetch
  rw [compose_nil]
  simp only [terminalNext, constTransport]
  by_cases hct : ((getHeader r.headers "content-type").getD "").containsSubstr "application/json"
  · simp [hct]
  · simp [hct]

/-- C6: Normalized response shape. With no registered middleware and a
transport resolving with reply `r`, each of fetch, get, post and postJson
resolves with the normalized response whose data is the parsed JSON body
exactly when the content-type header of the reply contains
application/json, and whose raw field otherwise holds the unparsed text
body. -/
theorem claim_C6_normalized_response (r : TransportResponse) (input : String)
    (init : RequestInit) (body : JsonVal) :
    OakClient.fetch { fetchImplementation := constTransport r, middleware := [] } input init
        = Except.ok (some
            (if ((getHeader r.headers "content-type").getD "").containsSubstr "application/json" then
              { status := r.status, headers := r.headers, data := r.jsonBody, raw := none }
            else
              { status := r.status, headers := r.headers, data := JsonVal.emptyObj,
                raw := some r.textBody })) ∧
    OakClient.get { fetchImplementation := constTransport r, middleware := [] } input (some init)
        = Except.ok (some
            (if ((getHeader r.headers "content-type").getD "").containsSubstr "application/json" then
              { status := r.status, headers := r.headers, data := r.jsonBody, raw := none }
            else
              { status := r.status, headers := r.headers, data := JsonVal.emptyObj,
                raw := some r.textBody })) ∧
    OakClient.post { fetchImplementation := constTransport r, middleware := [] } input (some init)
        = Except.ok (some
            (if ((getHeader r.headers "content-type").getD "").containsSubstr "application/json" then
              { status := r.status, headers := r.headers, data := r.jsonBody, raw := none }
            else
              { status := r.status, headers := r.headers, data := JsonVal.emptyObj,
                raw := some r.textBody })) ∧
    OakClient.postJson { fetchImplementation := constTransport r, middleware := [] } input body
          (some init)
        = Except.ok (some
            (if ((getHeader r.headers "content-type").getD "").containsSubstr "application/json" then
              { status := r.status, headers := r.headers, data := r.jsonBody, raw := none }
            else
              { status := r.status, headers := r.headers, data := JsonVal.emptyObj,
                raw := some r.textBody })) := by
  refine ⟨client_fetch_empty r input init, ?_, ?_, ?_⟩
  · unfold OakClient.get
    exact client_fetch_empty r input _
  · unfold OakClient.post
    exact client_fetch_empty r input _
  · unfold OakClient.postJson
    exact client_fetch_empty r input _

/-- C8: Per-invocation isolation. Composing a handler sequence and
invoking the pipeline on two identical fresh states yields identical
outcomes (final state and result), and every invocation starts its
dispatch cursor at 0 rather than sharing cursor state with a previous
invocation. -/
theorem claim_C8_invocation_isolation (σ ε : Type) (mws : List (HandlerM σ ε))
    (next : Option (MM σ ε Unit)) (s1 s2 : σ) (hinit : s1 = s2) :
    compose mws next s1 = compose mws next s2 ∧
    compose mws next s1 = dispatch mws next 0 s1 := by
  subst hinit
  exact ⟨rfl, rfl⟩

/-- Witness for C8 on a concrete pipeline and context. -/
theorem claim_C8_invocation_isolation_witness :
    compose [throwErrors] none sampleCtx = compose [throwErrors] none sampleCtx ∧
    compose [throwErrors] none sampleCtx = dispatch [throwErrors] none 0 sampleCtx :=
  claim_C8_invocation_isolation OakContext JsError [throwErrors] none sampleCtx sampleCtx rfl

/-- A handler that returns without invoking its next, short-circuiting
the chain. -/
def shortCircuit : HandlerM OakContext JsError := fun _ => fun s => (s, Except.ok ())

/-- A sample transport reply. -/
def sampleReply : TransportResponse :=
  { status := 200, headers := [], jsonBody := JsonVal.emptyObj, textBody := "" }

/-- C10: throwErrors on a short-circuited chain. When the handler below
throwErrors returns without calling next, the response is never populated
and throwErrors rejects with the destructuring TypeError: neither a
normal return nor a structured Boom error carrying a status code. -/
theorem claim_C10_throw_errors_missing_response :
    OakClient.fetch
        { fetchImplementation := constTransport sampleReply,
          middleware := [throwErrors, shortCircuit] } "/resource" emptyInit
      = Except.error destructureE ∧
    destructureE.name = "TypeError" ∧
    destructureE.statusCode = none := by
  refine ⟨?_, rfl, rfl⟩
  unfold OakClient.fetch
  rw [compose_cons, compose_cons]
  rw [show shortCircuit (compose [] (some (terminalNext (constTransport sampleReply))))
      = fun s => (s, Except.ok ()) from rfl]
  simp [throwErrors]

end Oak
